import Mathlib

/-!
Verification development for the charityscraper repository.

We give a shallow embedding of the field-extraction and ingestion pipeline of
`scraper.py` (class `CharityScraper`) together with the store adapter of
`database.py`, and settle the specification claims against it.

Conventions of the embedding:
* Python/JSON dynamic values are the inductive `Value`; Python truthiness is
  `pyTruthy`.
* A Python dict used as a record is a Lean structure whose fields are
  `Option Value`: `none` models a *missing key*, `some v` a key present with
  value `v` (in particular `some .null` is an explicit `None`/`null` entry).
* Fallible Python code (a `json.loads` that can raise, `dict.get` on a
  non-dict, indexing, `', '.join` on non-strings) is modelled in
  `Except String`; an uncaught Python exception is `.error`.
* `re.search` with the concrete patterns used by the scraper is modelled by
  dedicated total search functions implementing the same leftmost,
  non-greedy match semantics (a `.` never crosses a newline).
-/

namespace CharityScraperModel

/-- Dynamic JSON/Python values recovered from embedded fragments.
Numbers are `num m f`, denoting `m / 10 ^ f` (so `num 87 0` is the integer
`87` and `num 425 2` is `4.25`); exponent notation does not occur in the
scraped fragments and is not modelled. -/
inductive Value where
  | null : Value
  | bool (b : Bool) : Value
  | num (m : Int) (f : Nat) : Value
  | str (s : String) : Value
  | arr (items : List Value) : Value
  | obj (fields : List (String × Value)) : Value
deriving Repr

/-- Python truthiness of a dynamic value (`if v:`). -/
def pyTruthy : Value → Bool
  | .null => false
  | .bool b => b
  | .num m _ => m != 0
  | .str s => s ≠ ""
  | .arr l => !l.isEmpty
  | .obj l => !l.isEmpty

/-- Truthiness of an optional binding (`None` when the variable is unset). -/
def pyTruthyOpt : Option Value → Bool
  | none => false
  | some v => pyTruthy v

/-- First binding of key `k` in a parsed object's field list. -/
def lookupField (fields : List (String × Value)) (k : String) : Option Value :=
  (fields.find? (fun p => p.1 == k)).map (fun p => p.2)

/-- `dict.get(k, dflt)`: default on a missing key, `AttributeError` when the
receiver is not a dict. -/
def pyGet (v : Value) (k : String) (dflt : Value) : Except String Value :=
  match v with
  | .obj fields => .ok ((lookupField fields k).getD dflt)
  | _ => .error "AttributeError"

/-- `v[k]`: `KeyError` on a missing key, `TypeError` when the receiver is not
a dict. -/
def pyIndex (v : Value) (k : String) : Except String Value :=
  match v with
  | .obj fields =>
    match lookupField fields k with
    | some r => .ok r
    | none => .error "KeyError"
  | _ => .error "TypeError"

/-- Rendering used by Python f-string interpolation for the value kinds that
actually reach the address formatter (the subfields default to `''`). -/
def pyFormat : Value → String
  | .null => "None"
  | .bool b => if b then "True" else "False"
  | .num m 0 => toString m
  | .num m (f + 1) => toString m ++ "e-" ++ toString (f + 1)
  | .str s => s
  | .arr _ => "[...]"
  | .obj _ => "\x7b...\x7d"

/-! ### List-of-character utilities shared by the parser and the searches -/

/-- `pat` is an initial segment of `l`. -/
def leadsWith : List Char → List Char → Bool
  | [], _ => true
  | _ :: _, [] => false
  | p :: ps, c :: cs => p == c && leadsWith ps cs

/-- Substring test (`pat in hay` for Python strings). -/
def containsSeq (pat : List Char) : List Char → Bool
  | [] => leadsWith pat []
  | c :: cs => leadsWith pat (c :: cs) || containsSeq pat cs

/-- Worker for `replaceSeq`; the fuel is an upper bound on the input length,
so the `0` case is unreachable when called from `replaceSeq`. -/
def replaceSeqF (pat rep : List Char) : Nat → List Char → List Char
  | 0, l => l
  | _ + 1, [] => []
  | fuel + 1, c :: cs =>
    if pat ≠ [] ∧ leadsWith pat (c :: cs) = true then
      rep ++ replaceSeqF pat rep fuel (List.drop (pat.length - 1) cs)
    else
      c :: replaceSeqF pat rep fuel cs

/-- Python `str.replace(pat, rep)` on character lists: leftmost,
non-overlapping, for a non-empty pattern. -/
def replaceSeq (pat rep : List Char) (l : List Char) : List Char :=
  replaceSeqF pat rep l.length l

/-- Python whitespace accepted between JSON tokens. -/
def isJsonWs (c : Char) : Bool :=
  c == ' ' || c == '\t' || c == '\n' || c == '\r'

/-- Skip inter-token whitespace. -/
def skipWs : List Char → List Char
  | [] => []
  | c :: cs => if isJsonWs c then skipWs cs else c :: cs

/-- Hexadecimal digit value, for `\uXXXX` escapes. -/
def hexVal? (c : Char) : Option Nat :=
  if '0' ≤ c ∧ c ≤ '9' then some (c.toNat - '0'.toNat)
  else if 'a' ≤ c ∧ c ≤ 'f' then some (c.toNat - 'a'.toNat + 10)
  else if 'A' ≤ c ∧ c ≤ 'F' then some (c.toNat - 'A'.toNat + 10)
  else none

/-- Body of a JSON string literal after the opening quote: returns the decoded
characters and the remainder after the closing quote. -/
def strBody : List Char → Option (List Char × List Char)
  | [] => none
  | c :: cs =>
    if c = '"' then some ([], cs)
    else if c = '\\' then
      match cs with
      | [] => none
      | 'u' :: a :: b :: c2 :: d :: cs3 =>
        match hexVal? a, hexVal? b, hexVal? c2, hexVal? d with
        | some ha, some hb, some hc, some hd =>
          match strBody cs3 with
          | some (body, rest) =>
            some (Char.ofNat (((ha * 16 + hb) * 16 + hc) * 16 + hd) :: body, rest)
          | none => none
        | _, _, _, _ => none
      | e :: cs2 =>
        let dec : Option Char :=
          if e = '"' then some '"'
          else if e = '\\' then some '\\'
          else if e = '/' then some '/'
          else if e = 'b' then some '\x08'
          else if e = 'f' then some '\x0c'
          else if e = 'n' then some '\n'
          else if e = 'r' then some '\r'
          else if e = 't' then some '\t'
          else none
        match dec with
        | some ch =>
          match strBody cs2 with
          | some (body, rest) => some (ch :: body, rest)
          | none => none
        | none => none
    else
      match strBody cs with
      | some (body, rest) => some (c :: body, rest)
      | none => none

/-- Decimal digits to a natural number. -/
def digitsToNat (ds : List Char) : Nat :=
  ds.foldl (fun a c => a * 10 + (c.toNat - '0'.toNat)) 0

/-- A JSON number literal (strict: no leading zeros, a fraction part needs
digits on both sides of the point). -/
def parseNumber (s : List Char) : Option (Value × List Char) :=
  let negAndRest : Bool × List Char :=
    match s with
    | '-' :: rest => (true, rest)
    | _ => (false, s)
  let neg := negAndRest.1
  let s1 := negAndRest.2
  let ds := s1.takeWhile Char.isDigit
  let r1 := s1.dropWhile Char.isDigit
  if ds = [] then none
  else if 2 ≤ ds.length ∧ ds.head? = some '0' then none
  else
    match r1 with
    | '.' :: r2 =>
      let fs := r2.takeWhile Char.isDigit
      let r3 := r2.dropWhile Char.isDigit
      if fs = [] then none
      else
        let mag : Int := Int.ofNat (digitsToNat (ds ++ fs))
        some (.num (if neg then -mag else mag) fs.length, r3)
    | _ =>
      let mag : Int := Int.ofNat (digitsToNat ds)
      some (.num (if neg then -mag else mag) 0, r1)

/-- Replace-or-append used while building a parsed object, so duplicate keys
keep the first position with the last value, as a Python dict does. -/
def insertReplace (fields : List (String × Value)) (k : String) (v : Value) :
    List (String × Value) :=
  if (fields.find? (fun p => p.1 == k)).isSome then
    fields.map (fun p => if p.1 == k then (k, v) else p)
  else
    fields ++ [(k, v)]

mutual

/-- Recursive-descent JSON value parser (fuel-indexed; the fuel passed from
`parseJsonList` always suffices). Models Python `json.loads` on the documents
the scraper builds. -/
def parseVal : Nat → List Char → Except String (Value × List Char)
  | 0, _ => .error "JSONDecodeError"
  | _ + 1, [] => .error "JSONDecodeError"
  | fuel + 1, c :: cs =>
    if c = '"' then
      match strBody cs with
      | some (body, rest) => .ok (.str (String.mk body), rest)
      | none => .error "JSONDecodeError"
    else if c = '\x7b' then
      match skipWs cs with
      | '\x7d' :: rest => .ok (.obj [], rest)
      | s1 => parseMembers fuel s1 []
    else if c = '[' then
      match skipWs cs with
      | ']' :: rest => .ok (.arr [], rest)
      | s1 => parseItems fuel s1 []
    else if leadsWith ['n', 'u', 'l', 'l'] (c :: cs) then .ok (.null, cs.drop 3)
    else if leadsWith ['t', 'r', 'u', 'e'] (c :: cs) then .ok (.bool true, cs.drop 3)
    else if leadsWith ['f', 'a', 'l', 's', 'e'] (c :: cs) then .ok (.bool false, cs.drop 4)
    else
      match parseNumber (c :: cs) with
      | some (v, rest) => .ok (v, rest)
      | none => .error "JSONDecodeError"

/-- Members of an object after `{`, accumulating parsed pairs. -/
def parseMembers : Nat → List Char → List (String × Value) →
    Except String (Value × List Char)
  | 0, _, _ => .error "JSONDecodeError"
  | fuel + 1, s, acc =>
    match s with
    | '"' :: cs =>
      match strBody cs with
      | some (keyBody, r1) =>
        match skipWs r1 with
        | ':' :: r2 =>
          match parseVal fuel (skipWs r2) with
          | .ok (v, r3) =>
            let acc' := insertReplace acc (String.mk keyBody) v
            match skipWs r3 with
            | ',' :: r4 => parseMembers fuel (skipWs r4) acc'
            | '\x7d' :: r4 => .ok (.obj acc', r4)
            | _ => .error "JSONDecodeError"
          | .error e => .error e
        | _ => .error "JSONDecodeError"
      | none => .error "JSONDecodeError"
    | _ => .error "JSONDecodeError"

/-- Items of an array after `[`, accumulating parsed values. -/
def parseItems : Nat → List Char → List Value → Except String (Value × List Char)
  | 0, _, _ => .error "JSONDecodeError"
  | fuel + 1, s, acc =>
    match parseVal fuel s with
    | .ok (v, r1) =>
      match skipWs r1 with
      | ',' :: r2 => parseItems fuel (skipWs r2) (acc ++ [v])
      | ']' :: r2 => .ok (.arr (acc ++ [v]), r2)
      | _ => .error "JSONDecodeError"
    | .error e => .error e

end

/-- `json.loads` on a character list: parse one value and require only
whitespace after it. -/
def parseJsonList (s : List Char) : Except String Value :=
  match parseVal (2 * s.length + 4) (skipWs s) with
  | .ok (v, rest) =>
    match skipWs rest with
    | [] => .ok v
    | _ => .error "JSONDecodeError"
  | .error e => .error e

/-- `json.loads` on a string. -/
def jsonLoads (s : String) : Except String Value :=
  parseJsonList s.toList

/-! ### The quasi-JSON repairer (`_convert_string_for_json`,
`_convert_individual_entry_for_json`) -/

/-- `CharityScraper._convert_string_for_json`: sentinel and boolean-token
normalization, strip one trailing comma, strip one layer of enclosing
quotes, wrap in braces, then parse ("whole-object" mode). -/
def convertStringForJson (s0 : String) : Except String Value :=
  let l0 := replaceSeq "\"$undefined\"".toList "null".toList s0.toList
  let l1 := replaceSeq "\"true\"".toList "true".toList l0
  let l2 := replaceSeq "\"false\"".toList "false".toList l1
  let l3 := if l2.getLast? = some ',' then l2.dropLast else l2
  let l4 :=
    if l3.head? = some '"' ∧ l3.getLast? = some '"' then (l3.drop 1).dropLast else l3
  parseJsonList ('\x7b' :: (l4 ++ ['\x7d']))

/-- `CharityScraper._convert_individual_entry_for_json`: as the whole-object
mode but without the enclosing-quote strip ("single-entry" mode). -/
def convertIndividualEntryForJson (s0 : String) : Except String Value :=
  let l0 := replaceSeq "\"$undefined\"".toList "null".toList s0.toList
  let l1 := replaceSeq "\"true\"".toList "true".toList l0
  let l2 := replaceSeq "\"false\"".toList "false".toList l1
  let l3 := if l2.getLast? = some ',' then l2.dropLast else l2
  parseJsonList ('\x7b' :: (l3 ++ ['\x7d']))

/-! ### The pattern searches of `_extract_charity_details`

Each `re.search` in the scraper uses a literal lead, a non-greedy `.*?`
and a literal closing delimiter; `searchSeq` implements exactly that
leftmost/shortest semantics (`.` does not cross a newline). The score
pattern `"score":\s*(\d+)` is implemented by `searchScoreSeq`. -/

/-- Middle part of a non-greedy match: characters before the earliest
occurrence of `tail`, never crossing a newline. -/
def scanToSeq (tail : List Char) : List Char → Option (List Char)
  | [] => none
  | c :: cs =>
    if leadsWith tail (c :: cs) then some []
    else if c = '\n' then none
    else
      match scanToSeq tail cs with
      | some mid => some (c :: mid)
      | none => none

/-- `re.search(lead ++ ".*?" ++ tail, hay)`, returning the whole match. -/
def searchSeq (lead tail : List Char) : List Char → Option (List Char)
  | [] => none
  | c :: cs =>
    if leadsWith lead (c :: cs) then
      match scanToSeq tail (List.drop lead.length (c :: cs)) with
      | some mid => some (lead ++ (mid ++ tail))
      | none => searchSeq lead tail cs
    else searchSeq lead tail cs

/-- Python `\s` on the character set occurring here. -/
def isPyWs (c : Char) : Bool :=
  c == ' ' || c == '\t' || c == '\n' || c == '\r' || c == '\x0b' || c == '\x0c'

/-- `re.search("\"score\":\\s*(\\d+)", hay)`, returning the whole match. -/
def searchScoreSeq (lead : List Char) : List Char → Option (List Char)
  | [] => none
  | c :: cs =>
    if leadsWith lead (c :: cs) then
      let after := List.drop lead.length (c :: cs)
      let ws := after.takeWhile isPyWs
      let ds := (after.dropWhile isPyWs).takeWhile Char.isDigit
      if ds.isEmpty then searchScoreSeq lead cs
      else some (lead ++ (ws ++ ds))
    else searchScoreSeq lead cs

/-! ### Documents and the structured-data locator -/

/-- One `<script>` tag of the parsed page: its `type` attribute and its
`.string` content (`none` models BeautifulSoup returning `None`). -/
structure ScriptTag where
  attrType : Option String
  content : Option String
deriving Repr

/-- A parsed page: the list of script tags found by `find_all("script")`,
in document order. `find("script", {"type": "application/ld+json"})`
returns the first tag of the list with that type. -/
structure Soup where
  scripts : List ScriptTag
deriving Repr

/-- The seven free-form candidate variables of `_extract_charity_details`
(`name_json`, `address_json`, ...), each `None` until its pattern matched
and the matched fragment was repaired and parsed. -/
structure ScanState where
  nameJson : Option Value := none
  addressJson : Option Value := none
  websiteJson : Option Value := none
  phoneJson : Option Value := none
  missionJson : Option Value := none
  causesJson : Option Value := none
  scoreJson : Option Value := none
deriving Repr

/-- The `details` dict being built. `none` is a missing key; `some .null`
is a key explicitly set to `None`. -/
structure Details where
  name : Option Value := none
  website : Option Value := none
  nonprofitStatus : Option Value := none
  review : Option Value := none
  address : Option Value := none
  phone : Option Value := none
  mission : Option Value := none
  categories : Option Value := none
  rating : Option Value := none
deriving Repr

/-- `soup.find("script", {"type": "application/ld+json"})`. -/
def findLdJson (soup : Soup) : Option ScriptTag :=
  soup.scripts.find? (fun t => t.attrType == some "application/ld+json")

/-- The nested review-rating extraction of lines 150–158 of `scraper.py`. -/
def reviewFromData (fields : List (String × Value)) : Value :=
  let review := (lookupField fields "review").getD .null
  match review with
  | .obj rf =>
    if pyTruthy review then
      let rr := (lookupField rf "reviewRating").getD (.obj [])
      match rr with
      | .obj rrf => if pyTruthy rr then (lookupField rrf "ratingValue").getD (.obj []) else .null
      | _ => .null
    else .null
  | _ => .null

/-- The canonical `application/ld+json` block (lines 143–164): on success the
four canonical keys are set; when the block is missing, its content is
`None`, parsing fails, or the parsed data is not a dict, the `except`/`else`
branches set only `name`, `website` and `review` to `None`
(`nonprofitStatus` is left unset). All other keys stay unset. -/
def ldJsonStep (soup : Soup) : Details :=
  match findLdJson soup with
  | some tag =>
    match tag.content with
    | some s =>
      match jsonLoads s with
      | .ok (.obj fields) =>
        { name := some ((lookupField fields "name").getD (.obj []))
          website := some ((lookupField fields "url").getD (.obj []))
          nonprofitStatus := some ((lookupField fields "nonprofitStatus").getD (.obj []))
          review := some (reviewFromData fields) }
      | _ => { name := some .null, website := some .null, review := some .null }
    | none => { name := some .null, website := some .null, review := some .null }
  | none => { name := some .null, website := some .null, review := some .null }

/-- Line 178: a script block qualifies as a free-form source when its string
is truthy and contains both marker substrings. -/
def qualifies (t : ScriptTag) : Bool :=
  match t.content with
  | some s =>
    s != "" && containsSeq "orgDetails".toList s.toList
      && containsSeq "causes".toList s.toList
  | none => false

/-- Lines 222: the extra marker test for the score pattern, on the original
(uncleaned) tag string. -/
def hasScoreMarkers (t : ScriptTag) : Bool :=
  match t.content with
  | some s =>
    s != "" && containsSeq "ratingDetails".toList s.toList
      && containsSeq "score".toList s.toList
  | none => false

/-- The body of the `for tag in script_tags` loop (lines 179–225) for one
qualifying tag: strip backslashes, then run the seven guarded pattern
extractions in source order. Each repair/parse can raise. -/
def processTag (t : ScriptTag) (st : ScanState) : Except String ScanState := do
  let raw := (t.content.getD "").toList
  let cleaned := if containsSeq ['\\'] raw then raw.filter (fun c => c != '\\') else raw
  let st ←
    match searchSeq "\"name\":\"".toList "\",".toList cleaned with
    | some m =>
      if !pyTruthyOpt st.nameJson then do
        let v ← convertIndividualEntryForJson (String.mk m)
        pure { st with nameJson := some v }
      else pure st
    | none => pure st
  let st ←
    match searchSeq "\"url\":\"http".toList "\",".toList cleaned with
    | some m =>
      if !pyTruthyOpt st.nameJson then do
        let v ← convertIndividualEntryForJson (String.mk m)
        pure { st with websiteJson := some v }
      else pure st
    | none => pure st
  let st ←
    match searchSeq "\"addressPhysical\":\x7b".toList "\x7d,".toList cleaned with
    | some m =>
      if !pyTruthyOpt st.addressJson then do
        let v ← convertStringForJson (String.mk m)
        pure { st with addressJson := some v }
      else pure st
    | none => pure st
  let st ←
    match searchSeq "\"phone\":\"".toList "\",".toList cleaned with
    | some m =>
      if !pyTruthyOpt st.phoneJson then do
        let v ← convertIndividualEntryForJson (String.mk m)
        pure { st with phoneJson := some v }
      else pure st
    | none => pure st
  let st ←
    match searchSeq "\"mission\":\"".toList "\",".toList cleaned with
    | some m =>
      if !pyTruthyOpt st.missionJson then do
        let v ← convertIndividualEntryForJson (String.mk m)
        pure { st with missionJson := some v }
      else pure st
    | none => pure st
  let st ←
    match searchSeq "\"causes\":[".toList "]".toList cleaned with
    | some m =>
      if !pyTruthyOpt st.causesJson then do
        let v ← convertStringForJson (String.mk m)
        pure { st with causesJson := some v }
      else pure st
    | none => pure st
  let st ←
    if hasScoreMarkers t then
      match searchScoreSeq "\"score\":".toList cleaned with
      | some m =>
        if !pyTruthyOpt st.scoreJson then do
          let v ← convertIndividualEntryForJson (String.mk m)
          pure { st with scoreJson := some v }
        else pure st
      | none => pure st
    else pure st
  pure st

/-- Line 227: the short-circuit condition of the block scan (truthiness of
the six tested candidate variables; `website_json` is not tested). -/
def allTargetsSatisfied (st : ScanState) : Bool :=
  pyTruthyOpt st.nameJson && pyTruthyOpt st.addressJson && pyTruthyOpt st.phoneJson
    && pyTruthyOpt st.missionJson && pyTruthyOpt st.causesJson
    && pyTruthyOpt st.scoreJson

/-- The block scan (lines 177–228). Returns the final candidate state and
the blocks left unexamined by the `break`. -/
def scanBlocks : List ScriptTag → ScanState → Except String (ScanState × List ScriptTag)
  | [], st => .ok (st, [])
  | t :: ts, st =>
    if qualifies t then
      match processTag t st with
      | .ok st' =>
        if allTargetsSatisfied st' then .ok (st', ts) else scanBlocks ts st'
      | .error e => .error e
    else scanBlocks ts st

/-! ### The field reconciler (lines 244–287) -/

/-- Lines 244–247: the website reconciliation. Reading `details['website']`
on a missing key would be a `KeyError`. -/
def websiteField (d0 : Details) (st : ScanState) : Except String Value := do
  let w0 ←
    match d0.website with
    | some v => Except.ok v
    | none => Except.error "KeyError"
  if !pyTruthy w0 && pyTruthyOpt st.websiteJson then
    pyGet (st.websiteJson.getD .null) "url" (.obj [])
  else
    pure .null

/-- Lines 250–255: the composed physical-address string. -/
def addressField (st : ScanState) : Except String Value :=
  if pyTruthyOpt st.addressJson then do
    let ao ← pyGet (st.addressJson.getD .null) "addressPhysical" (.obj [])
    let street ← pyGet ao "street" (.str "")
    let street2 ← pyGet ao "street2" (.str "")
    let city ← pyGet ao "city" (.str "")
    let state ← pyGet ao "state" (.str "")
    let zipc ← pyGet ao "zip" (.str "")
    pure (.str (pyFormat street ++ " " ++ pyFormat street2 ++ ", " ++ pyFormat city
      ++ " " ++ pyFormat state ++ " " ++ pyFormat zipc))
  else pure .null

/-- Lines 257–261. -/
def phoneField (st : ScanState) : Except String Value :=
  if pyTruthyOpt st.phoneJson then pyGet (st.phoneJson.getD .null) "phone" (.obj [])
  else pure .null

/-- Lines 263–267. -/
def missionField (st : ScanState) : Except String Value :=
  if pyTruthyOpt st.missionJson then pyGet (st.missionJson.getD .null) "mission" (.obj [])
  else pure .null

/-- `', '.join` accepts only strings. -/
def expectStr : Value → Except String String
  | .str s => .ok s
  | _ => .error "TypeError"

/-- Lines 272–278: the causes list. When `causes_json` is falsy the `else`
branch only logs, so the `categories` key keeps its previous state
(it was never set before, hence stays missing). -/
def categoriesField (d0 : Details) (st : ScanState) : Except String (Option Value) :=
  if pyTruthyOpt st.causesJson then do
    let cd ← pyIndex (st.causesJson.getD .null) "causes"
    let items ←
      match cd with
      | .arr l => Except.ok l
      | _ => Except.error "TypeError"
    let names ← items.mapM (fun c => pyIndex c "name")
    let strs ← names.mapM expectStr
    pure (some (.str (String.intercalate ", " strs)))
  else pure d0.categories

/-- Lines 281–285: `if score_json is not None` (an identity test, not
truthiness). -/
def ratingField (st : ScanState) : Except String Value :=
  match st.scoreJson with
  | some v => pyGet v "score" (.obj [])
  | none => pure .null

/-- The reconciliation block after the scan, in source statement order; the
first raising step aborts the whole extraction. -/
def reconcile (d0 : Details) (st : ScanState) : Except String Details :=
  match websiteField d0 st with
  | .error e => .error e
  | .ok w =>
    match addressField st with
    | .error e => .error e
    | .ok a =>
      match phoneField st with
      | .error e => .error e
      | .ok p =>
        match missionField st with
        | .error e => .error e
        | .ok m =>
          match categoriesField d0 st with
          | .error e => .error e
          | .ok cats =>
            match ratingField st with
            | .error e => .error e
            | .ok r =>
              .ok { d0 with
                     website := some w
                     address := some a
                     phone := some p
                     mission := some m
                     categories := cats
                     rating := some r }

/-- `CharityScraper._extract_charity_details`: canonical block, block scan,
reconciliation. An uncaught exception anywhere inside is an `.error`. -/
def extractCharityDetails (soup : Soup) : Except String Details :=
  match scanBlocks soup.scripts {} with
  | .error e => .error e
  | .ok scanRes => reconcile (ldJsonStep soup) scanRes.1

/-! ### Store adapter (`database.py`) and ingestion orchestrator -/

/-- The `charities` table: rows keyed by the `UNIQUE` `ein` column. -/
abbrev Store := List (String × Details)

/-- All `ein` values present in the table. -/
def storeKeys (s : Store) : List String := s.map Prod.fst

/-- Line 301: `set(row['ein'] for row in rows if row.get('ein'))` — only
truthy (non-empty) keys enter the skip snapshot. -/
def existingEins (s : Store) : List String :=
  (storeKeys s).filter (fun k => k != "")

/-- Membership of a key in a key list (Python `in` on the snapshot set). -/
def memb (k : String) : List String → Bool
  | [] => false
  | x :: xs => x == k || memb k xs

/-- `INSERT OR REPLACE` keyed on the unique `ein` column: replace the whole
row on a key collision, append otherwise. -/
def upsert (s : Store) (k : String) (d : Details) : Store :=
  if memb k (storeKeys s) then
    s.map (fun p => if p.1 == k then (k, d) else p)
  else s ++ [(k, d)]

/-- Outcome of one iteration of the `for ein in eins` loop of
`scrape_and_store_charities` (network path, `db_manager` present).
`persisted d` means `insert_data` was invoked with record `d`. -/
inductive StepResult where
  | skippedHeader : StepResult
  | skippedExisting : StepResult
  | fetchFailed : StepResult
  | extractFailed (e : String) : StepResult
  | invalidName (d : Details) : StepResult
  | persisted (d : Details) : StepResult
deriving Repr

/-- One key of the ingestion loop (lines 304–347): header-token skip,
existence-check skip against the run-start snapshot, fetch (`none` models a
`RequestException`/non-success status, caught in `fetch_page`), extraction
(an exception is caught by the per-key `except`), and the required-name
guard before `insert_data`. -/
def processKey (pages : String → Option Soup) (snap : List String) (ein : String) :
    StepResult :=
  if ein = "EIN" then .skippedHeader
  else if memb ein snap then .skippedExisting
  else
    match pages ein with
    | none => .fetchFailed
    | some soup =>
      match extractCharityDetails soup with
      | .error e => .extractFailed e
      | .ok d => if pyTruthyOpt d.name then .persisted d else .invalidName d

/-- The ingestion loop over the remaining keys, threading the store and a
log of the upserts performed. -/
def loopGo (pages : String → Option Soup) (snap : List String) :
    List String → Store → List (String × Details) → Store × List (String × Details)
  | [], s, log => (s, log)
  | k :: ks, s, log =>
    match processKey pages snap k with
    | .persisted d => loopGo pages snap ks (upsert s k d) (log ++ [(k, d)])
    | _ => loopGo pages snap ks s log

/-- `CharityScraper.scrape_and_store_charities`: take the existence snapshot
once, then run the loop. Returns the final store and the upsert log. -/
def scrapeAndStoreCharities (pages : String → Option Soup) (eins : List String)
    (s : Store) : Store × List (String × Details) :=
  loopGo pages (existingEins s) eins s []

/-! ### CSV input (`get_eins_from_input_csv`) -/

/-- A Python value as it appears in the header comparison of
`get_eins_from_input_csv`: the row is a list of cell strings, the compared
token is a string. -/
inductive PyCsvVal where
  | pstr (s : String) : PyCsvVal
  | plist (row : List String) : PyCsvVal

/-- Python `==` across these dynamic types: values of different types are
never equal. -/
def pyEqCsv : PyCsvVal → PyCsvVal → Bool
  | .pstr a, .pstr b => a == b
  | .plist a, .plist b => a == b
  | _, _ => false

/-- `get_eins_from_input_csv` on the parsed rows of a readable file
(lines 360–366): skip a row when `row == "EIN"`, else append
`", ".join(row)`. -/
def getEinsFromInputCsv : List (List String) → List String
  | [] => []
  | row :: rest =>
    if pyEqCsv (.plist row) (.pstr "EIN") then getEinsFromInputCsv rest
    else String.intercalate ", " row :: getEinsFromInputCsv rest

/-! ### Concrete pages used as test vectors -/

/-- A page whose canonical `ld+json` block carries a name and a non-empty
website and which has no free-form blocks. -/
def soupCanonicalSite : Soup :=
  ⟨[⟨some "application/ld+json",
     some "\x7b\"name\":\"Acme\",\"url\":\"https://acme.org\"\x7d"⟩]⟩

/-- The record the scraper extracts from `soupCanonicalSite`. -/
def detailsCanonicalSite : Details :=
  { name := some (.str "Acme")
    website := some .null
    nonprofitStatus := some (.obj [])
    review := some .null
    address := some .null
    phone := some .null
    mission := some .null
    categories := none
    rating := some .null }

/-- A page with no canonical block and one qualifying free-form block whose
name pattern matches. -/
def soupFreeFormName : Soup :=
  ⟨[⟨none, some "orgDetails causes \"name\":\"Acme\","⟩]⟩

/-- The record the scraper extracts from `soupFreeFormName`. -/
def detailsFreeFormName : Details :=
  { name := some .null
    website := some .null
    nonprofitStatus := none
    review := some .null
    address := some .null
    phone := some .null
    mission := some .null
    categories := none
    rating := some .null }

/-- The candidate state after scanning `soupFreeFormName`: the free-form
name candidate was matched and parsed. -/
def scanFreeFormName : ScanState :=
  { nameJson := some (.obj [("name", .str "Acme")]) }

/-- A page whose only qualifying block contains a malformed phone fragment
(`"phone":"55"5",`): the repair's final parse step fails. -/
def soupBadPhone : Soup :=
  ⟨[⟨none, some "orgDetails causes \"phone\":\"55\"5\","⟩]⟩

/-- A well-formed page with only a canonical name. -/
def soupGood : Soup :=
  ⟨[⟨some "application/ld+json", some "\x7b\"name\":\"Good Org\"\x7d"⟩]⟩

/-- The record the scraper extracts from `soupGood`. -/
def detailsGood : Details :=
  { name := some (.str "Good Org")
    website := some .null
    nonprofitStatus := some (.obj [])
    review := some .null
    address := some .null
    phone := some .null
    mission := some .null
    categories := none
    rating := some .null }

/-- A fetch map: `"k1"` resolves to the malformed-phone page, `"k2"` to a
good page, anything else fails to fetch. -/
def pagesBadThenGood : String → Option Soup := fun k =>
  if k = "k1" then some soupBadPhone
  else if k = "k2" then some soupGood
  else none

/-- A free-form block yielding candidates for all six short-circuit fields
(name, address, phone, mission, causes, score) but no website candidate. -/
def tagSixFields : ScriptTag :=
  ⟨none,
   some "orgDetails \"name\":\"A\",\"addressPhysical\":\x7b\"street\":\"S\"\x7d,\"phone\":\"P\",\"mission\":\"M\",\"causes\":[],\"ratingDetails\" \"score\": 7,"⟩

/-- A later qualifying block containing a website candidate. -/
def tagLaterUrl : ScriptTag :=
  ⟨none, some "orgDetails causes \"url\":\"https://x.org\","⟩

/-- The candidate state after the scan processes `tagSixFields`. -/
def scanSixFields : ScanState :=
  { nameJson := some (.obj [("name", .str "A")])
    addressJson := some (.obj [("addressPhysical", .obj [("street", .str "S")])])
    websiteJson := none
    phoneJson := some (.obj [("phone", .str "P")])
    missionJson := some (.obj [("mission", .str "M")])
    causesJson := some (.obj [("causes", .arr [])])
    scoreJson := some (.obj [("score", .num 7 0)]) }

/-- A page with no script blocks at all. -/
def soupEmptyPage : Soup := ⟨[]⟩

/-- The record the scraper extracts from `soupEmptyPage`. -/
def detailsEmptyPage : Details :=
  { name := some .null
    website := some .null
    nonprofitStatus := none
    review := some .null
    address := some .null
    phone := some .null
    mission := some .null
    categories := none
    rating := some .null }

/-- The address fragment of §8 of the spec. -/
def fragAddress : String :=
  "\"addressPhysical\":\x7b\"street\":\"1 Main\",\"street2\":\"\",\"city\":\"X\",\"state\":\"NY\",\"zip\":\"10001\"\x7d,"

/-- The parsed value the whole-object repair produces from `fragAddress`. -/
def addrParsed : Value :=
  .obj [("addressPhysical",
    .obj [("street", .str "1 Main"), ("street2", .str ""), ("city", .str "X"),
          ("state", .str "NY"), ("zip", .str "10001")])]

/-! ## Helper lemmas -/

theorem memb_iff (k : String) (l : List String) : memb k l = true ↔ k ∈ l := by
  induction l with
  | nil => simp [memb]
  | cons x xs ih =>
    simp only [memb, Bool.or_eq_true, beq_iff_eq, ih, List.mem_cons]
    exact or_congr ⟨Eq.symm, Eq.symm⟩ Iff.rfl

theorem processKey_snap_irrel (pages : String → Option Soup) (snap snap' : List String)
    (k : String) (h : memb k snap = memb k snap') :
    processKey pages snap k = processKey pages snap' k := by
  unfold processKey
  rw [h]

theorem storeKeys_upsert_superset (s : Store) (k k' : String) (d : Details)
    (h : k' ∈ storeKeys s) : k' ∈ storeKeys (upsert s k d) := by
  unfold upsert
  split
  · simp only [storeKeys, List.mem_map] at h ⊢
    obtain ⟨p, hp, he⟩ := h
    refine ⟨if p.1 == k then (k, d) else p, ⟨p, hp, rfl⟩, ?_⟩
    by_cases hpk : p.1 == k
    · simp only [hpk, if_true]
      exact (eq_of_beq hpk).symm.trans he
    · simp only [hpk, Bool.false_eq_true, if_false]
      exact he
  · simp only [storeKeys, List.map_append, List.mem_append]
    exact Or.inl h

theorem self_mem_storeKeys_upsert (s : Store) (k : String) (d : Details) :
    k ∈ storeKeys (upsert s k d) := by
  unfold upsert
  split
  case isTrue hc =>
    rw [memb_iff] at hc
    simp only [storeKeys, List.mem_map] at hc ⊢
    obtain ⟨p, hp, he⟩ := hc
    refine ⟨if p.1 == k then (k, d) else p, ⟨p, hp, rfl⟩, ?_⟩
    simp [he]
  case isFalse hc =>
    simp [storeKeys, List.map_append]

theorem mem_storeKeys_loopGo (pages : String → Option Soup) (snap : List String)
    (ks : List String) (k : String) :
    ∀ s log, k ∈ storeKeys s → k ∈ storeKeys (loopGo pages snap ks s log).1 := by
  induction ks with
  | nil =>
    intro s log h
    exact h
  | cons k' ks ih =>
    intro s log h
    cases hq : processKey pages snap k'
    case persisted d =>
      simp only [loopGo, hq]
      exact ih _ _ (storeKeys_upsert_superset _ _ _ _ h)
    all_goals
      simp only [loopGo, hq]
      exact ih _ _ h

theorem persisted_mem_storeKeys_loopGo (pages : String → Option Soup)
    (snap : List String) (ks : List String) (k : String) (d : Details)
    (hp : processKey pages snap k = .persisted d) :
    ∀ s log, k ∈ ks → k ∈ storeKeys (loopGo pages snap ks s log).1 := by
  induction ks with
  | nil =>
    intro s log h
    cases h
  | cons k' ks ih =>
    intro s log hmem
    rcases List.mem_cons.mp hmem with heq | hmem'
    · subst heq
      simp only [loopGo, hp]
      exact mem_storeKeys_loopGo _ _ _ _ _ _ (self_mem_storeKeys_upsert _ _ _)
    · cases hq : processKey pages snap k'
      case persisted d' =>
        simp only [loopGo, hq]
        exact ih _ _ hmem'
      all_goals
        simp only [loopGo, hq]
        exact ih _ _ hmem'

theorem loopGo_no_persist (pages : String → Option Soup) (snap : List String)
    (ks : List String) :
    ∀ s log, (∀ k ∈ ks, ∀ d, processKey pages snap k ≠ .persisted d) →
      loopGo pages snap ks s log = (s, log) := by
  induction ks with
  | nil =>
    intro s log _
    rfl
  | cons k ks ih =>
    intro s log h
    cases hq : processKey pages snap k
    case persisted d => exact absurd hq (h k (List.mem_cons_self k ks) d)
    all_goals
      simp only [loopGo, hq]
      exact ih _ _ (fun k' hk' d' => h k' (List.mem_cons_of_mem _ hk') d')

theorem processKey_persisted_inv (pages : String → Option Soup) (snap : List String)
    (k : String) (d : Details) (h : processKey pages snap k = .persisted d) :
    k ≠ "EIN" ∧ memb k snap = false
      ∧ ∃ soup, pages k = some soup ∧ extractCharityDetails soup = .ok d
          ∧ pyTruthyOpt d.name = true := by
  by_cases h1 : k = "EIN"
  · simp [processKey, h1] at h
  · cases h2 : memb k snap
    · cases hpg : pages k
      · simp [processKey, h1, h2, hpg] at h
      · next soup =>
        cases hex : extractCharityDetails soup
        · simp [processKey, h1, h2, hpg, hex] at h
        · next d' =>
          cases hname : pyTruthyOpt d'.name
          · simp [processKey, h1, h2, hpg, hex, hname] at h
          · have hdd : d' = d := by
              simpa [processKey, h1, h2, hpg, hex, hname] using h
            subst hdd
            exact ⟨h1, rfl, soup, rfl, hex, hname⟩
    · simp [processKey, h1, h2] at h

theorem ldJsonStep_core_keys (soup : Soup) :
    (ldJsonStep soup).name.isSome = true ∧ (ldJsonStep soup).review.isSome = true := by
  unfold ldJsonStep
  repeat' split
  all_goals exact ⟨rfl, rfl⟩

theorem reconcile_fields (d0 : Details) (st : ScanState) (d : Details)
    (h : reconcile d0 st = .ok d) :
    d.name = d0.name ∧ d.review = d0.review
      ∧ d.website.isSome = true ∧ d.address.isSome = true ∧ d.phone.isSome = true
      ∧ d.mission.isSome = true ∧ d.rating.isSome = true := by
  unfold reconcile at h
  repeat' split at h
  all_goals first
    | (rw [Except.ok.injEq] at h
       subst h
       exact ⟨rfl, rfl, rfl, rfl, rfl, rfl, rfl⟩)
    | exact Except.noConfusion h

/-! ## Claim theorems -/

/-- C1: the claim says the reconciled `website` equals the canonical value
when that value is non-empty. The code does the opposite: on
`soupCanonicalSite` the canonical block carries the non-empty website
`https://acme.org`, yet the extracted (and persistable) record has
`website` explicitly `null` — the `else` branch of lines 244–247 of
`scraper.py` overwrites any truthy canonical value with `None`. -/
theorem C1_canonical_website_discarded :
    extractCharityDetails soupCanonicalSite = .ok detailsCanonicalSite
      ∧ detailsCanonicalSite.website = some .null
      ∧ detailsCanonicalSite.name = some (.str "Acme") :=
  ⟨rfl, rfl, rfl⟩

/-- C2: the claim says that with no canonical block the record's `name`
equals the first free-form name candidate. On `soupFreeFormName` the scan
does match and parse the free-form candidate (`name_json` holds
`{"name": "Acme"}`), but the extracted record still has `name = null`
(record invalid): `name_json` is never copied into `details`. -/
theorem C2_freeform_name_never_used :
    extractCharityDetails soupFreeFormName = .ok detailsFreeFormName
      ∧ scanBlocks soupFreeFormName.scripts {} = .ok (scanFreeFormName, [])
      ∧ scanFreeFormName.nameJson = some (.obj [("name", .str "Acme")])
      ∧ detailsFreeFormName.name = some .null :=
  ⟨rfl, rfl, rfl, rfl⟩

/-- C3: for a key that reaches extraction (not the header token, not in the
existence snapshot, fetch and extraction succeed), the upsert is invoked
iff the resolved name is truthy; within the data model's string-or-null
value space, truthy is exactly "non-null and non-empty". -/
theorem C3_persist_iff_valid_name (pages : String → Option Soup)
    (snap : List String) (k : String) (soup : Soup) (d : Details)
    (hk : k ≠ "EIN") (hm : memb k snap = false)
    (hpg : pages k = some soup) (hex : extractCharityDetails soup = .ok d)
    (hshape : d.name = some .null ∨ ∃ s, d.name = some (.str s)) :
    ((∃ d', processKey pages snap k = .persisted d')
        ↔ d.name ≠ some .null ∧ d.name ≠ some (.str ""))
      ∧ (processKey pages snap k = .persisted d ↔ pyTruthyOpt d.name = true) := by
  have hpk : processKey pages snap k
      = if pyTruthyOpt d.name then .persisted d else .invalidName d := by
    simp [processKey, hk, hm, hpg, hex]
  rcases hshape with hnull | ⟨s, hs⟩
  · rw [hnull] at hpk ⊢
    simp only [pyTruthyOpt, pyTruthy, Bool.false_eq_true, if_false] at hpk
    constructor
    · rw [hpk]
      constructor
      · rintro ⟨d', hd'⟩
        exact absurd hd' (by simp)
      · rintro ⟨hne, -⟩
        exact absurd rfl hne
    · rw [hpk]
      constructor
      · intro hd'
        exact absurd hd' (by simp)
      · intro hb
        exact absurd hb (by simp [pyTruthyOpt, pyTruthy])
  · rw [hs] at hpk ⊢
    by_cases hse : s = ""
    · subst hse
      simp only [pyTruthyOpt, pyTruthy, ne_eq, decide_not] at hpk
      norm_num at hpk
      constructor
      · rw [hpk]
        constructor
        · rintro ⟨d', hd'⟩
          exact absurd hd' (by simp)
        · rintro ⟨-, hne⟩
          exact absurd rfl hne
      · rw [hpk]
        constructor
        · intro hd'
          exact absurd hd' (by simp)
        · intro hb
          simp [pyTruthyOpt, pyTruthy] at hb
    · have htr : pyTruthyOpt (some (Value.str s)) = true := by
        simp [pyTruthyOpt, pyTruthy, hse]
      rw [htr] at hpk
      simp only [if_true] at hpk
      constructor
      · constructor
        · intro _
          exact ⟨by simp, by simp [hse]⟩
        · intro _
          exact ⟨d, hpk⟩
      · constructor
        · intro _
          exact htr
        · intro _
          exact hpk

/-- C3 witness: on a concrete good page the record is persisted and its
name `"Good Org"` is non-null and non-empty. -/
theorem C3_witness :
    extractCharityDetails soupGood = .ok detailsGood
      ∧ (((∃ d', processKey (fun _ => some soupGood) [] "k" = .persisted d')
            ↔ detailsGood.name ≠ some .null ∧ detailsGood.name ≠ some (.str ""))
          ∧ (processKey (fun _ => some soupGood) [] "k" = .persisted detailsGood
              ↔ pyTruthyOpt detailsGood.name = true)) :=
  ⟨rfl, C3_persist_iff_valid_name (fun _ => some soupGood) [] "k" soupGood detailsGood
    (by decide) rfl rfl rfl (Or.inr ⟨"Good Org", rfl⟩)⟩

/-- C4 counterexample: the malformed phone fragment of `soupBadPhone` makes
the whole page extraction raise (no record at all, nothing persisted for
`"k1"`), contradicting "only the affected field resolves to null while the
remaining fields of the same page are still extracted and the record can
still be persisted"; the later key `"k2"` is still processed. -/
theorem C4_counterexample_page_aborts :
    extractCharityDetails soupBadPhone = .error "JSONDecodeError"
      ∧ scrapeAndStoreCharities pagesBadThenGood ["k1", "k2"] []
          = ([("k2", detailsGood)], [("k2", detailsGood)]) :=
  ⟨rfl, rfl⟩

/-- C4 (amended): when repairing a free-form fragment fails at the final
parse step, the parse error propagates out of the page's field extraction;
the key is marked failed at the per-key boundary — no record is persisted
for it — and the loop continues with the subsequent keys unchanged. -/
theorem C4_amended_error_contained (pages : String → Option Soup)
    (snap : List String) (k : String) (ks : List String) (s : Store)
    (log : List (String × Details)) (soup : Soup) (e : String)
    (hk : k ≠ "EIN") (hm : memb k snap = false)
    (hpg : pages k = some soup) (hex : extractCharityDetails soup = .error e) :
    processKey pages snap k = .extractFailed e
      ∧ loopGo pages snap (k :: ks) s log = loopGo pages snap ks s log := by
  have h1 : processKey pages snap k = .extractFailed e := by
    simp [processKey, hk, hm, hpg, hex]
  exact ⟨h1, by simp only [loopGo, h1]⟩

/-- C4 witness: instantiating the amended statement on the concrete
malformed-phone page. -/
theorem C4_amended_witness :
    processKey pagesBadThenGood [] "k1" = .extractFailed "JSONDecodeError"
      ∧ loopGo pagesBadThenGood [] ["k1", "k2"] [] []
          = loopGo pagesBadThenGood [] ["k2"] [] [] :=
  C4_amended_error_contained pagesBadThenGood [] "k1" ["k2"] [] [] soupBadPhone
    "JSONDecodeError" (by decide) rfl rfl rfl

/-- C5: running the ingestion twice over the same key list (all keys
non-empty, per the §3 entity-key invariant), starting the second run from
the store the first run produced, leaves the store unchanged and performs
zero upserts in the second run. -/
theorem C5_second_run_noop (pages : String → Option Soup) (eins : List String)
    (s0 : Store) (hne : ∀ k ∈ eins, k ≠ "") :
    scrapeAndStoreCharities pages eins (scrapeAndStoreCharities pages eins s0).1
      = ((scrapeAndStoreCharities pages eins s0).1, []) := by
  unfold scrapeAndStoreCharities
  apply loopGo_no_persist
  intro k hk d hp
  obtain ⟨hkh, hksnap, soup, hpg, hex, hname⟩ := processKey_persisted_inv _ _ _ _ hp
  have hmono : ∀ k', k' ∈ storeKeys s0 →
      k' ∈ storeKeys (loopGo pages (existingEins s0) eins s0 []).1 :=
    fun k' h' => mem_storeKeys_loopGo _ _ _ _ _ _ h'
  have hsnap0 : memb k (existingEins s0) = false := by
    cases hc : memb k (existingEins s0)
    · rfl
    · exfalso
      rw [memb_iff] at hc
      simp only [existingEins, List.mem_filter] at hc
      have hk1 : k ∈ existingEins (loopGo pages (existingEins s0) eins s0 []).1 := by
        simp only [existingEins, List.mem_filter]
        exact ⟨hmono k hc.1, hc.2⟩
      rw [← memb_iff] at hk1
      rw [hksnap] at hk1
      exact Bool.false_ne_true hk1
  have hp0 : processKey pages (existingEins s0) k = .persisted d := by
    rw [processKey_snap_irrel pages (existingEins s0)
      (existingEins (loopGo pages (existingEins s0) eins s0 []).1) k
      (by rw [hsnap0, hksnap])]
    exact hp
  have hkmem : k ∈ storeKeys (loopGo pages (existingEins s0) eins s0 []).1 :=
    persisted_mem_storeKeys_loopGo _ _ _ _ _ hp0 _ _ hk
  have hk1 : k ∈ existingEins (loopGo pages (existingEins s0) eins s0 []).1 := by
    simp only [existingEins, List.mem_filter]
    refine ⟨hkmem, ?_⟩
    simpa using hne k hk
  rw [← memb_iff] at hk1
  rw [hksnap] at hk1
  exact Bool.false_ne_true hk1

/-- C5 witness: a concrete two-run execution over one key against an empty
initial store. -/
theorem C5_witness :
    scrapeAndStoreCharities (fun _ => some soupGood) ["a"]
        (scrapeAndStoreCharities (fun _ => some soupGood) ["a"] []).1
      = ((scrapeAndStoreCharities (fun _ => some soupGood) ["a"] []).1, []) :=
  C5_second_run_noop (fun _ => some soupGood) ["a"] []
    (by
      intro k hk
      rw [List.mem_singleton] at hk
      subst hk
      decide)

/-- C6 counterexample: after the first block yields the six tested
candidates the scan breaks with `tagLaterUrl` unexamined, although the
targeted `website` field still has no candidate — and `tagLaterUrl` is a
qualifying block whose website pattern would match. This refutes "it never
breaks out of the scan while some targeted field still has no candidate"
with `website` among the targeted fields. -/
theorem C6_counterexample_website_ignored :
    scanBlocks [tagSixFields, tagLaterUrl] {} = .ok (scanSixFields, [tagLaterUrl])
      ∧ scanSixFields.websiteJson = none
      ∧ qualifies tagLaterUrl = true
      ∧ (searchSeq "\"url\":\"http".toList "\",".toList
          (tagLaterUrl.content.getD "").toList).isSome = true :=
  ⟨rfl, rfl, rfl, rfl⟩

/-- C6 (amended): the scan stops exactly when the six fields name, address,
phone, mission, causes and score each hold a truthy candidate; the website
candidate is not part of the stop condition. -/
theorem C6_amended_stop_condition :
    (∀ tags st res rem, scanBlocks tags st = .ok (res, rem) → rem ≠ [] →
        allTargetsSatisfied res = true)
      ∧ (∀ t ts st st', qualifies t = true → processTag t st = .ok st' →
          allTargetsSatisfied st' = true → scanBlocks (t :: ts) st = .ok (st', ts)) := by
  constructor
  · intro tags
    induction tags with
    | nil =>
      intro st res rem h hne
      rw [scanBlocks] at h
      rw [Except.ok.injEq, Prod.mk.injEq] at h
      exact absurd h.2.symm hne
    | cons t ts ih =>
      intro st res rem h hne
      by_cases hq : qualifies t = true
      · cases hp : processTag t st
        · simp [scanBlocks, hq, hp] at h
        · next st' =>
          by_cases hsat : allTargetsSatisfied st' = true
          · simp only [scanBlocks, hq, hp, hsat, if_true, Except.ok.injEq,
              Prod.mk.injEq] at h
            obtain ⟨h1, -⟩ := h
            rw [← h1]
            exact hsat
          · simp only [scanBlocks, hq, hp, hsat, if_false, Bool.false_eq_true] at h
            exact ih st' res rem h hne
      · simp only [scanBlocks, hq, if_false, Bool.false_eq_true] at h
        exact ih st res rem h hne
  · intro t ts st st' hq hp hsat
    simp [scanBlocks, hq, hp, hsat]

/-- C6 witness: the amended statement instantiated on the concrete
two-block page. -/
theorem C6_amended_witness :
    allTargetsSatisfied scanSixFields = true
      ∧ scanBlocks [tagSixFields, tagLaterUrl] {} = .ok (scanSixFields, [tagLaterUrl]) :=
  ⟨C6_amended_stop_condition.1 [tagSixFields, tagLaterUrl] {} scanSixFields
      [tagLaterUrl] rfl (by simp),
   C6_amended_stop_condition.2 tagSixFields [tagLaterUrl] {} scanSixFields rfl rfl rfl⟩

/-- C7 counterexample: on a page with no scripts the extracted record leaves
`nonprofitStatus` and `categories` as missing keys rather than explicit
nulls, refuting "each optional field whose source candidate is absent
resolves to an explicit null value — never to a missing key". -/
theorem C7_counterexample_missing_keys :
    extractCharityDetails soupEmptyPage = .ok detailsEmptyPage
      ∧ detailsEmptyPage.nonprofitStatus = none
      ∧ detailsEmptyPage.categories = none :=
  ⟨rfl, rfl, rfl⟩

/-- C7 (amended): whenever extraction returns a record, the keys `name`,
`website`, `review`, `address`, `phone`, `mission` and `rating` are always
present (explicitly null when their source is absent), and only a missing
`name` value invalidates the record; `nonprofitStatus` and `categories`,
however, can be left as missing keys. -/
theorem C7_amended_explicit_keys (soup : Soup) (d : Details)
    (h : extractCharityDetails soup = .ok d) :
    d.name.isSome = true ∧ d.website.isSome = true ∧ d.review.isSome = true
      ∧ d.address.isSome = true ∧ d.phone.isSome = true ∧ d.mission.isSome = true
      ∧ d.rating.isSome = true := by
  unfold extractCharityDetails at h
  split at h
  · exact Except.noConfusion h
  · obtain ⟨hn, hr, hw, ha, hp, hm, hrt⟩ := reconcile_fields _ _ _ h
    obtain ⟨hn0, hr0⟩ := ldJsonStep_core_keys soup
    refine ⟨?_, hw, ?_, ha, hp, hm, hrt⟩
    · rw [hn]
      exact hn0
    · rw [hr]
      exact hr0

/-- C7 witness: the amended statement instantiated on the empty page. -/
theorem C7_amended_witness :
    extractCharityDetails soupEmptyPage = .ok detailsEmptyPage
      ∧ (detailsEmptyPage.name.isSome = true ∧ detailsEmptyPage.website.isSome = true
          ∧ detailsEmptyPage.review.isSome = true ∧ detailsEmptyPage.address.isSome = true
          ∧ detailsEmptyPage.phone.isSome = true ∧ detailsEmptyPage.mission.isSome = true
          ∧ detailsEmptyPage.rating.isSome = true) :=
  ⟨rfl, C7_amended_explicit_keys soupEmptyPage detailsEmptyPage rfl⟩

/-- C8: repairing the §8 address fragment in whole-object mode and applying
the address formatting step yields exactly `"1 Main , X NY 10001"`. -/
theorem C8_address_repair_format :
    convertStringForJson fragAddress = .ok addrParsed
      ∧ addressField { addressJson := some addrParsed }
          = .ok (.str "1 Main , X NY 10001") :=
  ⟨rfl, rfl⟩

/-- C9: a fetch failure for a key (with the key neither the header token nor
already persisted) marks exactly that key failed, and the loop over the
remaining keys continues with the same state — subsequent keys are
processed as if the failing key were absent. -/
theorem C9_fetch_failure_isolated (pages : String → Option Soup)
    (snap : List String) (k : String) (ks : List String) (s : Store)
    (log : List (String × Details))
    (hk : k ≠ "EIN") (hm : memb k snap = false) (hf : pages k = none) :
    processKey pages snap k = .fetchFailed
      ∧ loopGo pages snap (k :: ks) s log = loopGo pages snap ks s log := by
  have h1 : processKey pages snap k = .fetchFailed := by
    simp [processKey, hk, hm, hf]
  exact ⟨h1, by simp only [loopGo, h1]⟩

/-- C9 witness: a concrete always-failing fetch on one key followed by
another key. -/
theorem C9_witness :
    processKey (fun _ => none) [] "x" = .fetchFailed
      ∧ loopGo (fun _ => none) [] ["x", "y"] [] []
          = loopGo (fun _ => none) [] ["y"] [] [] :=
  C9_fetch_failure_isolated (fun _ => none) [] "x" ["y"] [] [] (by decide) rfl rfl

/-- C10: `get_eins_from_input_csv` returns one entry per row, each the row's
cells joined with `", "`, excluding no row: the header comparison tests a
list against the string `"EIN"`, which is false for every row, so even a
header row is kept. -/
theorem C10_csv_keeps_all_rows (rows : List (List String)) :
    getEinsFromInputCsv rows = rows.map (String.intercalate ", ") := by
  induction rows with
  | nil => rfl
  | cons row rest ih => simp [getEinsFromInputCsv, pyEqCsv, ih]

end CharityScraperModel
